import Mathlib

/-!
Verification of the Workforce-Compass cohort projection engine.

The definitions below are a shallow embedding of `src/core/predictor.py`
(class HRPredictor) and `src/core/data_processor.py` (class DataProcessor).
Python dictionaries keyed by the levels 1..7 are embedded as total functions
on ℕ (the upstream layer guarantees exactly the keys 1..7 are present, and
the engine only reads those keys); Python ints are ℤ, and Python floats are
embedded as exact rationals ℚ.  Python's built-in `round` (round half to
even, to an int) is embedded as `pyRound`.
-/

namespace Workforce

/-- The level range 1..7 (`HRPredictor.LEVEL_RANGE = range(1, 8)`). -/
def levelList : List ℕ := [1, 2, 3, 4, 5, 6, 7]

/-- Sum of an integer per-level quantity over the levels 1..7
(`sum(d.values())` for a dict built over `LEVEL_RANGE`). -/
def levelSum (f : ℕ → ℤ) : ℤ := (levelList.map f).sum

/-- Sum of a rational per-level quantity over the levels 1..7. -/
def levelSumQ (f : ℕ → ℚ) : ℚ := (levelList.map f).sum

/-- Python's built-in `round` on an exact value: round half to even. -/
def pyRound (x : ℚ) : ℤ :=
  if x - ⌊x⌋ < 1/2 then ⌊x⌋
  else if 1/2 < x - ⌊x⌋ then ⌊x⌋ + 1
  else if ⌊x⌋ % 2 = 0 then ⌊x⌋ else ⌊x⌋ + 1

/-- The argument tuple of `HRPredictor.predict_one_year`
(`src/core/predictor.py` lines 17-34).  The two current-age mappings are
optional (`Optional[Dict[int, float]]`), as is the carried-over previous
total age. -/
structure PredictInput where
  current_campus_employees : ℕ → ℤ
  current_social_employees : ℕ → ℤ
  current_campus_ages : Option (ℕ → ℚ)
  current_social_ages : Option (ℕ → ℚ)
  campus_leaving_ages : ℕ → ℚ
  social_leaving_ages : ℕ → ℚ
  social_new_hire_ages : ℕ → ℚ
  campus_new_hire_age : ℚ
  campus_promotion_rates : ℕ → ℚ
  social_promotion_rates : ℕ → ℚ
  campus_attrition_rates : ℕ → ℚ
  social_attrition_rates : ℕ → ℚ
  hiring_ratios : ℕ → ℚ
  campus_ratio : ℚ
  target_total : ℤ
  previous_predicted_total_age : Option ℚ

/-- `promoted_out_campus` (predictor.py line 85). -/
def promoted_out_campus (p : PredictInput) (level : ℕ) : ℤ :=
  pyRound ((p.current_campus_employees level : ℚ) * p.campus_promotion_rates level)

/-- `promoted_out_social` (predictor.py line 86). -/
def promoted_out_social (p : PredictInput) (level : ℕ) : ℤ :=
  pyRound ((p.current_social_employees level : ℚ) * p.social_promotion_rates level)

/-- `promoted_in_campus` (predictor.py line 89): promotions in from the level
below, 0 at the minimum level 1. -/
def promoted_in_campus (p : PredictInput) (level : ℕ) : ℤ :=
  if 1 < level then
    pyRound ((p.current_campus_employees (level - 1) : ℚ) *
      p.campus_promotion_rates (level - 1))
  else 0

/-- `promoted_in_social` (predictor.py line 90). -/
def promoted_in_social (p : PredictInput) (level : ℕ) : ℤ :=
  if 1 < level then
    pyRound ((p.current_social_employees (level - 1) : ℚ) *
      p.social_promotion_rates (level - 1))
  else 0

/-- `A_campus` (predictor.py line 93): headcount after promotion adjustments. -/
def A_campus (p : PredictInput) (level : ℕ) : ℤ :=
  p.current_campus_employees level - promoted_out_campus p level + promoted_in_campus p level

/-- `A_social` (predictor.py line 94). -/
def A_social (p : PredictInput) (level : ℕ) : ℤ :=
  p.current_social_employees level - promoted_out_social p level + promoted_in_social p level

/-- `B_campus` (predictor.py lines 97-100): attrition is scaled by the original
headcount and subtracted from the promotion-adjusted figure. -/
def B_campus (p : PredictInput) (level : ℕ) : ℤ :=
  pyRound ((A_campus p level : ℚ) -
    (p.current_campus_employees level : ℚ) * p.campus_attrition_rates level)

/-- `B_social` (predictor.py lines 102-105). -/
def B_social (p : PredictInput) (level : ℕ) : ℤ :=
  pyRound ((A_social p level : ℚ) -
    (p.current_social_employees level : ℚ) * p.social_attrition_rates level)

/-- `B` (predictor.py lines 107-110): channel merge. -/
def B (p : PredictInput) (level : ℕ) : ℤ := B_campus p level + B_social p level

/-- `total_B` (predictor.py line 113). -/
def total_B (p : PredictInput) : ℤ := levelSum (B p)

/-- `campus_hiring` (predictor.py line 114). -/
def campus_hiring (p : PredictInput) : ℤ :=
  pyRound ((p.target_total : ℚ) * p.campus_ratio)

/-- `total_social_hiring_needed` (predictor.py line 115): may be negative and
is passed to the allocation step unclamped. -/
def total_social_hiring_needed (p : PredictInput) : ℤ :=
  p.target_total - total_B p - campus_hiring p

/-- `initial_C` (predictor.py lines 118-121): per-level rounded share of the
social hiring total. -/
def initial_C (p : PredictInput) (level : ℕ) : ℤ :=
  pyRound ((total_social_hiring_needed p : ℚ) * p.hiring_ratios level)

/-- `initial_total` (predictor.py line 123). -/
def initial_total (p : PredictInput) : ℤ := levelSum (initial_C p)

/-- `max(self.LEVEL_RANGE, key=lambda x: initial_C[x])` (predictor.py line
128).  Python's `max` keeps the first element among ties, which the fold
reproduces by replacing the accumulator only on a strictly larger value. -/
def max_hiring_level (f : ℕ → ℤ) : ℕ :=
  levelList.foldl (fun b x => if f b < f x then x else b) 1

/-- `initial_C` after the residual correction (predictor.py lines 126-129):
when the rounded total misses the target, the whole difference is added to
the level holding the maximum initial allocation. -/
def adjusted_C (p : PredictInput) (level : ℕ) : ℤ :=
  if initial_total p = total_social_hiring_needed p then initial_C p level
  else if level = max_hiring_level (initial_C p) then
    initial_C p level + (total_social_hiring_needed p - initial_total p)
  else initial_C p level

/-- `C` (predictor.py lines 131-134): negative allocations clamped to 0. -/
def C (p : PredictInput) (level : ℕ) : ℤ := max 0 (adjusted_C p level)

/-- `final_campus` (predictor.py lines 137-140): campus hires land at level 1
only. -/
def final_campus (p : PredictInput) (level : ℕ) : ℤ :=
  B_campus p level + (if level = 1 then campus_hiring p else 0)

/-- `final_social` (predictor.py lines 142-145). -/
def final_social (p : PredictInput) (level : ℕ) : ℤ :=
  B_social p level + C p level

/-- `final_structure` (predictor.py lines 147-150). -/
def final_structure (p : PredictInput) (level : ℕ) : ℤ :=
  final_campus p level + final_social p level

/-- `predicted_total` (predictor.py line 153). -/
def predicted_total (p : PredictInput) : ℤ := levelSum (final_structure p)

/-- `predicted_average_level` (predictor.py lines 156-159). -/
def predicted_average_level (p : PredictInput) : ℚ :=
  if predicted_total p ≠ 0 then
    ((levelSum fun l => (l : ℤ) * final_structure p l : ℤ) : ℚ) / (predicted_total p : ℚ)
  else 0

/-- `current_total` (predictor.py lines 162-165). -/
def current_total (p : PredictInput) : ℤ :=
  levelSum fun l => p.current_campus_employees l + p.current_social_employees l

/-- `current_total_age` (predictor.py lines 168-179): the carried-over scalar
when one is supplied, otherwise seeded from the per-channel current ages;
`none` when seeding is impossible (which makes the call raise). -/
def current_total_age_opt (p : PredictInput) : Option ℚ :=
  match p.previous_predicted_total_age with
  | some a => some a
  | none =>
    match p.current_campus_ages, p.current_social_ages with
    | some ca, some sa =>
      some (levelSumQ fun l =>
        (p.current_campus_employees l : ℚ) * ca l +
        (p.current_social_employees l : ℚ) * sa l)
    | _, _ => none

/-- `campus_leaving_total` (predictor.py lines 182-185). -/
def campus_leaving_total (p : PredictInput) : ℚ :=
  levelSumQ fun l => (p.current_campus_employees l : ℚ) * p.campus_attrition_rates l

/-- `social_leaving_total` (predictor.py lines 187-190). -/
def social_leaving_total (p : PredictInput) : ℚ :=
  levelSumQ fun l => (p.current_social_employees l : ℚ) * p.social_attrition_rates l

/-- `campus_leaving_total_age` (predictor.py lines 192-195). -/
def campus_leaving_total_age (p : PredictInput) : ℚ :=
  levelSumQ fun l =>
    (p.current_campus_employees l : ℚ) * p.campus_attrition_rates l * p.campus_leaving_ages l

/-- `social_leaving_total_age` (predictor.py lines 197-200). -/
def social_leaving_total_age (p : PredictInput) : ℚ :=
  levelSumQ fun l =>
    (p.current_social_employees l : ℚ) * p.social_attrition_rates l * p.social_leaving_ages l

/-- `survived_total` (predictor.py line 203). -/
def survived_total (p : PredictInput) : ℚ :=
  (current_total p : ℚ) - (campus_leaving_total p + social_leaving_total p)

/-- `predicted_total_age` (predictor.py lines 206-212), given the resolved
current total age. -/
def predicted_total_age (p : PredictInput) (currentTotalAge : ℚ) : ℚ :=
  currentTotalAge -
  (campus_leaving_total_age p + social_leaving_total_age p) +
  survived_total p * 1 +
  (campus_hiring p : ℚ) * p.campus_new_hire_age +
  levelSumQ fun l => (C p l : ℚ) * p.social_new_hire_ages l

/-- `predicted_average_age` (predictor.py line 215). -/
def predicted_average_age (p : PredictInput) (currentTotalAge : ℚ) : ℚ :=
  if predicted_total p ≠ 0 then
    predicted_total_age p currentTotalAge / (predicted_total p : ℚ)
  else 0

/-- `predicted_campus_ratio` (predictor.py lines 218-221). -/
def predicted_campus_ratio (p : PredictInput) : ℚ :=
  if 0 < predicted_total p then
    ((levelSum (final_campus p) : ℤ) : ℚ) / (predicted_total p : ℚ)
  else 0

/-- The tuple `predict_one_year` returns (predictor.py lines 35-45). -/
structure PredictResult where
  final_campus : ℕ → ℤ
  final_social : ℕ → ℤ
  final_structure : ℕ → ℤ
  predicted_average_level : ℚ
  predicted_average_age : ℚ
  predicted_campus_ratio : ℚ
  campus_hiring : ℤ
  social_hiring : ℕ → ℤ
  predicted_total_age : ℚ

/-- The result tuple assembled at predictor.py lines 223-233, given the
resolved current total age. -/
def mkResult (p : PredictInput) (currentTotalAge : ℚ) : PredictResult where
  final_campus := final_campus p
  final_social := final_social p
  final_structure := final_structure p
  predicted_average_level := predicted_average_level p
  predicted_average_age := predicted_average_age p currentTotalAge
  predicted_campus_ratio := predicted_campus_ratio p
  campus_hiring := campus_hiring p
  social_hiring := C p
  predicted_total_age := predicted_total_age p currentTotalAge

/-- `HRPredictor.predict_one_year` (predictor.py lines 17-233).  The
`ValueError` raised at line 171 (first forecast year with a missing
per-channel age mapping) is embedded as the `Except.error` branch; in every
other case the full result tuple is returned. -/
def predict_one_year (p : PredictInput) : Except String PredictResult :=
  match current_total_age_opt p with
  | none =>
    .error "First year prediction requires current campus and social recruitment age data"
  | some a => .ok (mkResult p a)

/-- State-passing form of `predict_one_year`: the final state of the input
mappings is returned alongside the result.  The source (predictor.py lines
79-233) only reads the input dictionaries (subscript reads) and writes only
to freshly constructed local dictionaries; the single in-place write
`initial_C[max_hiring_level] += diff` at line 129 targets the
comprehension-built `initial_C` dictionary, embedded above as `adjusted_C`.
Hence the input environment is handed back as it was received. -/
def predict_one_year_st (p : PredictInput) :
    Except String (PredictInput × PredictResult) :=
  match current_total_age_opt p with
  | none =>
    .error "First year prediction requires current campus and social recruitment age data"
  | some a => .ok (p, mkResult p a)

/-- The `initial_params` dictionary consumed by
`HRPredictor.predict_multiple_years` (predictor.py lines 253-276): the same
data as `PredictInput`, but the per-channel current age mappings are
mandatory (the code accesses them unconditionally at lines 255-256). -/
structure InitialParams where
  current_campus_employees : ℕ → ℤ
  current_social_employees : ℕ → ℤ
  current_campus_ages : ℕ → ℚ
  current_social_ages : ℕ → ℚ
  campus_leaving_ages : ℕ → ℚ
  social_leaving_ages : ℕ → ℚ
  social_new_hire_ages : ℕ → ℚ
  campus_new_hire_age : ℚ
  campus_promotion_rates : ℕ → ℚ
  social_promotion_rates : ℕ → ℚ
  campus_attrition_rates : ℕ → ℚ
  social_attrition_rates : ℕ → ℚ
  hiring_ratios : ℕ → ℚ
  campus_ratio : ℚ
  target_total : ℤ

/-- The argument tuple `predict_multiple_years` passes to `predict_one_year`
on one iteration (predictor.py lines 261-278). -/
def toInput (ip : InitialParams) (campus social : ℕ → ℤ)
    (campusAges socialAges : Option (ℕ → ℚ)) (prev : Option ℚ) : PredictInput where
  current_campus_employees := campus
  current_social_employees := social
  current_campus_ages := campusAges
  current_social_ages := socialAges
  campus_leaving_ages := ip.campus_leaving_ages
  social_leaving_ages := ip.social_leaving_ages
  social_new_hire_ages := ip.social_new_hire_ages
  campus_new_hire_age := ip.campus_new_hire_age
  campus_promotion_rates := ip.campus_promotion_rates
  social_promotion_rates := ip.social_promotion_rates
  campus_attrition_rates := ip.campus_attrition_rates
  social_attrition_rates := ip.social_attrition_rates
  hiring_ratios := ip.hiring_ratios
  campus_ratio := ip.campus_ratio
  target_total := ip.target_total
  previous_predicted_total_age := prev

/-- One per-year record of `predict_multiple_years` (predictor.py lines
294-307): the year index, the year's starting headcounts, and the year's
engine result. -/
structure YearRec where
  year : ℕ
  current_campus : ℕ → ℤ
  current_social : ℕ → ℤ
  result : PredictResult

/-- The loop of `predict_multiple_years` (predictor.py lines 260-312),
with the loop state (current headcounts, carried total age, iteration index)
made explicit.  Ages are supplied only when `year == 0` and the carried
total age only when `year > 0`, exactly as at lines 264-265 and 277.  An
exception raised by `predict_one_year` propagates and discards every
record. -/
def predict_loop (ip : InitialParams) :
    (ℕ → ℤ) → (ℕ → ℤ) → Option ℚ → ℕ → ℕ → Except String (List YearRec)
  | _, _, _, _, 0 => .ok []
  | campus, social, prev, year, n + 1 =>
    match predict_one_year (toInput ip campus social
        (if year = 0 then some ip.current_campus_ages else none)
        (if year = 0 then some ip.current_social_ages else none)
        (if 0 < year then prev else none)) with
    | .error e => .error e
    | .ok r =>
      match predict_loop ip r.final_campus r.final_social
          (some r.predicted_total_age) (year + 1) n with
      | .error e => .error e
      | .ok rest =>
        .ok ({ year := year + 1, current_campus := campus,
               current_social := social, result := r } :: rest)

/-- `HRPredictor.predict_multiple_years` (predictor.py lines 235-314). -/
def predict_multiple_years (ip : InitialParams) (forecast_years : ℕ) :
    Except String (List YearRec) :=
  predict_loop ip ip.current_campus_employees ip.current_social_employees
    none 0 forecast_years

/-- The age mass seeded from the starting headcounts and per-channel ages in
the first forecast year (predictor.py lines 173-177 with the data of
`initial_params`). -/
def seedAge (ip : InitialParams) : ℚ :=
  levelSumQ fun l =>
    (ip.current_campus_employees l : ℚ) * ip.current_campus_ages l +
    (ip.current_social_employees l : ℚ) * ip.current_social_ages l

/-- The records `predict_loop` produces from year `year + 1` on, written as a
pure recursion (possible because a carried total age is always supplied
there, so no exception can be raised). -/
def chainRecs (ip : InitialParams) :
    (ℕ → ℤ) → (ℕ → ℤ) → ℚ → ℕ → ℕ → List YearRec
  | _, _, _, _, 0 => []
  | campus, social, a, year, n + 1 =>
    let r := mkResult (toInput ip campus social none none (some a)) a
    { year := year + 1, current_campus := campus,
      current_social := social, result := r }
      :: chainRecs ip r.final_campus r.final_social r.predicted_total_age (year + 1) n

/-- The full record list of `predict_multiple_years`: the first year is
seeded from the supplied ages, every later year is chained. -/
def chainAll (ip : InitialParams) (n : ℕ) : List YearRec :=
  match n with
  | 0 => []
  | m + 1 =>
    let r := mkResult (toInput ip ip.current_campus_employees ip.current_social_employees
      (some ip.current_campus_ages) (some ip.current_social_ages) none) (seedAge ip)
    { year := 1, current_campus := ip.current_campus_employees,
      current_social := ip.current_social_employees, result := r }
      :: chainRecs ip r.final_campus r.final_social r.predicted_total_age 1 m

/-- The chaining relation claimed between consecutive year records: the later
record starts from the earlier record's final headcounts, its year index is
one higher, and its result is exactly what one `predict_one_year` call
returns on the earlier record's outputs, with no per-channel age mappings
supplied and the earlier record's predicted total age carried over. -/
def chained (ip : InitialParams) (prev cur : YearRec) : Prop :=
  cur.current_campus = prev.result.final_campus ∧
  cur.current_social = prev.result.final_social ∧
  cur.year = prev.year + 1 ∧
  predict_one_year (toInput ip prev.result.final_campus prev.result.final_social
    none none (some prev.result.predicted_total_age)) = .ok cur.result

/-- One row of the validated input table consumed by
`DataProcessor.calculate_current_metrics` (data_processor.py lines 111-149):
only the columns that function reads. -/
structure Row where
  level : ℕ
  campus_employee : ℤ
  social_employee : ℤ
  campus_age : ℚ
  social_age : ℚ

/-- The metric dictionary `calculate_current_metrics` returns
(data_processor.py lines 144-149). -/
structure CurrentMetrics where
  current_total : ℤ
  current_average_level : ℚ
  current_average_age : ℚ
  current_campus_ratio : ℚ

/-- `DataProcessor.calculate_current_metrics` (data_processor.py lines
111-149): the division-by-zero guards return 0.0 when the total headcount is
0. -/
def calculate_current_metrics (df : List Row) : CurrentMetrics :=
  let current_total : ℤ := (df.map fun r => r.campus_employee + r.social_employee).sum
  { current_total := current_total
    current_average_level :=
      if current_total ≠ 0 then
        (((df.map fun r => (r.level : ℤ) * (r.campus_employee + r.social_employee)).sum : ℤ) : ℚ) /
          (current_total : ℚ)
      else 0
    current_average_age :=
      if current_total ≠ 0 then
        (df.map fun r =>
          (r.campus_employee : ℚ) * r.campus_age + (r.social_employee : ℚ) * r.social_age).sum /
          (current_total : ℚ)
      else 0
    current_campus_ratio :=
      if 0 < current_total then
        (((df.map fun r => r.campus_employee).sum : ℤ) : ℚ) / (current_total : ℚ)
      else 0 }

/-! Specification-side definitions, written from the spec text (sections 4.2
step 2 and step 8) rather than from the code, for the refinement claims that
compare the code against the spec's formulas. -/

/-- Modelled from the spec ("attrition computed against originally-held
headcount, subtracted from the promotion-adjusted figure"):
`B[L] = round(A[L] - headcount[L] * attrition_rate[L])`. -/
def specAttrition (postPromotion original : ℤ) (rate : ℚ) : ℤ :=
  pyRound ((postPromotion : ℚ) - (original : ℚ) * rate)

/-- Modelled from the spec: the starting age mass is the carried scalar when
the caller supplies one, otherwise it is seeded from per-level headcounts
times per-channel ages; for the seed both channels of current ages must be
present. -/
def specStartAgeMass (p : PredictInput) : Option ℚ :=
  match p.previous_predicted_total_age with
  | some carried => some carried
  | none =>
    match p.current_campus_ages, p.current_social_ages with
    | some ca, some sa =>
      some (levelSumQ fun l =>
        (p.current_campus_employees l : ℚ) * ca l +
        (p.current_social_employees l : ℚ) * sa l)
    | _, _ => none

/-- Modelled from the spec:
`attrition_age_mass_removed = Σ_channel(original_headcount[L] × attrition_rate[L] × leaving_age[L])`. -/
def specAttritionAgeMassRemoved (p : PredictInput) : ℚ :=
  (levelSumQ fun l =>
    (p.current_campus_employees l : ℚ) * p.campus_attrition_rates l * p.campus_leaving_ages l) +
  (levelSumQ fun l =>
    (p.current_social_employees l : ℚ) * p.social_attrition_rates l * p.social_leaving_ages l)

/-- Modelled from the spec: `survivors = current_total − total_attrition_count`. -/
def specSurvivors (p : PredictInput) : ℚ :=
  (current_total p : ℚ) -
  ((levelSumQ fun l => (p.current_campus_employees l : ℚ) * p.campus_attrition_rates l) +
   (levelSumQ fun l => (p.current_social_employees l : ℚ) * p.social_attrition_rates l))

/-- Modelled from the spec: `start_age_mass − attrition_age_mass_removed +
survivors_aged_by_one_year + campus_hires × campus_new_hire_age +
Σ(social_hires[L] × social_new_hire_age[L])`, survivors aged by exactly one
year each (added as `survivors × 1`). -/
def specNewAgeMass (p : PredictInput) (start : ℚ) : ℚ :=
  start - specAttritionAgeMassRemoved p + specSurvivors p * 1 +
  (campus_hiring p : ℚ) * p.campus_new_hire_age +
  levelSumQ fun l => (C p l : ℚ) * p.social_new_hire_ages l

/-! Concrete inputs used by the counterexamples and the witnesses. -/

/-- The all-zero parameter bundle (with per-channel ages supplied). -/
def zeroInput : PredictInput where
  current_campus_employees := fun _ => 0
  current_social_employees := fun _ => 0
  current_campus_ages := some fun _ => 0
  current_social_ages := some fun _ => 0
  campus_leaving_ages := fun _ => 0
  social_leaving_ages := fun _ => 0
  social_new_hire_ages := fun _ => 0
  campus_new_hire_age := 0
  campus_promotion_rates := fun _ => 0
  social_promotion_rates := fun _ => 0
  campus_attrition_rates := fun _ => 0
  social_attrition_rates := fun _ => 0
  hiring_ratios := fun _ => 0
  campus_ratio := 0
  target_total := 0
  previous_predicted_total_age := none

/-- The all-zero parameter bundle carrying a previous total age of 5. -/
def carriedInput : PredictInput :=
  { zeroInput with previous_predicted_total_age := some 5 }

/-- The all-zero multi-year parameter bundle. -/
def zeroParams : InitialParams where
  current_campus_employees := fun _ => 0
  current_social_employees := fun _ => 0
  current_campus_ages := fun _ => 0
  current_social_ages := fun _ => 0
  campus_leaving_ages := fun _ => 0
  social_leaving_ages := fun _ => 0
  social_new_hire_ages := fun _ => 0
  campus_new_hire_age := 0
  campus_promotion_rates := fun _ => 0
  social_promotion_rates := fun _ => 0
  campus_attrition_rates := fun _ => 0
  social_attrition_rates := fun _ => 0
  hiring_ratios := fun _ => 0
  campus_ratio := 0
  target_total := 0

/-- The concrete scenario of spec section 8: everything lives at level 1,
100 campus and 100 social employees, no promotion, 10 percent attrition in
both channels, all social hiring at level 1, half the 200-person target from
campus hiring, and every age parameter 30. -/
def scenarioInput : PredictInput where
  current_campus_employees := fun l => if l = 1 then 100 else 0
  current_social_employees := fun l => if l = 1 then 100 else 0
  current_campus_ages := some fun _ => 30
  current_social_ages := some fun _ => 30
  campus_leaving_ages := fun _ => 30
  social_leaving_ages := fun _ => 30
  social_new_hire_ages := fun _ => 30
  campus_new_hire_age := 30
  campus_promotion_rates := fun _ => 0
  social_promotion_rates := fun _ => 0
  campus_attrition_rates := fun _ => 1/10
  social_attrition_rates := fun _ => 1/10
  hiring_ratios := fun l => if l = 1 then 1 else 0
  campus_ratio := 1/2
  target_total := 200
  previous_predicted_total_age := none

/-- A parameter bundle breaking non-negativity: one campus employee at level
2 with promotion rate 1 and attrition rate 1 at that level, and no hiring.
All rates are within [0,1] and all headcounts non-negative. -/
def negInput : PredictInput where
  current_campus_employees := fun l => if l = 2 then 1 else 0
  current_social_employees := fun _ => 0
  current_campus_ages := some fun _ => 30
  current_social_ages := some fun _ => 30
  campus_leaving_ages := fun _ => 30
  social_leaving_ages := fun _ => 30
  social_new_hire_ages := fun _ => 30
  campus_new_hire_age := 30
  campus_promotion_rates := fun l => if l = 2 then 1 else 0
  social_promotion_rates := fun _ => 0
  campus_attrition_rates := fun l => if l = 2 then 1 else 0
  social_attrition_rates := fun _ => 0
  hiring_ratios := fun _ => 0
  campus_ratio := 0
  target_total := 0
  previous_predicted_total_age := none

/-- A parameter bundle with a nonzero promotion rate at level 7: ten campus
employees at level 7 and a level-7 promotion rate of one half. -/
def topInput : PredictInput where
  current_campus_employees := fun l => if l = 7 then 10 else 0
  current_social_employees := fun _ => 0
  current_campus_ages := some fun _ => 30
  current_social_ages := some fun _ => 30
  campus_leaving_ages := fun _ => 30
  social_leaving_ages := fun _ => 30
  social_new_hire_ages := fun _ => 30
  campus_new_hire_age := 30
  campus_promotion_rates := fun l => if l = 7 then 1/2 else 0
  social_promotion_rates := fun _ => 0
  campus_attrition_rates := fun _ => 0
  social_attrition_rates := fun _ => 0
  hiring_ratios := fun _ => 0
  campus_ratio := 0
  target_total := 0
  previous_predicted_total_age := none

/-- The all-zero seven-row input table. -/
def zeroTable : List Row :=
  [⟨1, 0, 0, 30, 30⟩, ⟨2, 0, 0, 30, 30⟩, ⟨3, 0, 0, 30, 30⟩, ⟨4, 0, 0, 30, 30⟩,
   ⟨5, 0, 0, 30, 30⟩, ⟨6, 0, 0, 30, 30⟩, ⟨7, 0, 0, 30, 30⟩]

/-! ## General lemmas about the embedded operations -/

lemma pyRound_nonneg_of_neg_half {x : ℚ} (h : -(1/2) ≤ x) : 0 ≤ pyRound x := by
  unfold pyRound
  have hf : (⌊x⌋ : ℚ) ≤ x := Int.floor_le x
  have hx : x < ⌊x⌋ + 1 := Int.lt_floor_add_one x
  split_ifs with h1 h2 h3
  · have hq : (-1 : ℚ) < (⌊x⌋ : ℚ) := by linarith
    have hz : (-1 : ℤ) < ⌊x⌋ := by exact_mod_cast hq
    omega
  · have hq : (-2 : ℚ) < (⌊x⌋ : ℚ) := by linarith
    have hz : (-2 : ℤ) < ⌊x⌋ := by exact_mod_cast hq
    omega
  · have hq : (-2 : ℚ) < (⌊x⌋ : ℚ) := by linarith
    have hz : (-2 : ℤ) < ⌊x⌋ := by exact_mod_cast hq
    omega
  · have hq : (-2 : ℚ) < (⌊x⌋ : ℚ) := by linarith
    have hz : (-2 : ℤ) < ⌊x⌋ := by exact_mod_cast hq
    omega

lemma pyRound_nonneg {x : ℚ} (h : 0 ≤ x) : 0 ≤ pyRound x :=
  pyRound_nonneg_of_neg_half (by linarith)

lemma pyRound_cast_le (x : ℚ) : (pyRound x : ℚ) ≤ x + 1/2 := by
  unfold pyRound
  have hf : (⌊x⌋ : ℚ) ≤ x := Int.floor_le x
  split_ifs with h1 h2 h3 <;> push_cast <;> linarith

lemma levelSum_expand (f : ℕ → ℤ) :
    levelSum f = f 1 + f 2 + f 3 + f 4 + f 5 + f 6 + f 7 := by
  simp [levelSum, levelList]
  ring

lemma levelSumQ_expand (f : ℕ → ℚ) :
    levelSumQ f = f 1 + f 2 + f 3 + f 4 + f 5 + f 6 + f 7 := by
  simp [levelSumQ, levelList]
  ring

/-- The comparison step of Python's `max(..., key=...)`: the accumulator is
replaced only on a strictly larger key, so ties keep the earlier element. -/
def maxStep (f : ℕ → ℤ) (b x : ℕ) : ℕ := if f b < f x then x else b

lemma max_hiring_level_eq_foldl (f : ℕ → ℤ) :
    max_hiring_level f = levelList.foldl (maxStep f) 1 := rfl

lemma maxStep_left (f : ℕ → ℤ) (b x : ℕ) : f b ≤ f (maxStep f b x) := by
  unfold maxStep
  split_ifs <;> omega

lemma maxStep_right (f : ℕ → ℤ) (b x : ℕ) : f x ≤ f (maxStep f b x) := by
  unfold maxStep
  split_ifs <;> omega

lemma foldl_maxStep_init (f : ℕ → ℤ) :
    ∀ (l : List ℕ) (b : ℕ), f b ≤ f (l.foldl (maxStep f) b) := by
  intro l
  induction l with
  | nil => intro b; simp
  | cons x t ih =>
    intro b
    simp only [List.foldl]
    exact le_trans (maxStep_left f b x) (ih (maxStep f b x))

lemma foldl_maxStep_mem_le (f : ℕ → ℤ) :
    ∀ (l : List ℕ) (b : ℕ), ∀ x ∈ l, f x ≤ f (l.foldl (maxStep f) b) := by
  intro l
  induction l with
  | nil => intro b x hx; simp at hx
  | cons y t ih =>
    intro b x hx
    simp only [List.foldl]
    rcases List.mem_cons.mp hx with rfl | hx
    · exact le_trans (maxStep_right f b x) (foldl_maxStep_init f t (maxStep f b x))
    · exact ih (maxStep f b y) x hx

lemma foldl_maxStep_choice (f : ℕ → ℤ) :
    ∀ (l : List ℕ) (b : ℕ), l.foldl (maxStep f) b ∈ b :: l := by
  intro l
  induction l with
  | nil => intro b; simp
  | cons x t ih =>
    intro b
    simp only [List.foldl]
    have h := ih (maxStep f b x)
    have hs : maxStep f b x = x ∨ maxStep f b x = b := by
      unfold maxStep
      split_ifs <;> simp
    rcases List.mem_cons.mp h with h1 | h1
    · rw [h1]
      rcases hs with hs | hs <;> rw [hs]
      · exact List.mem_cons_of_mem b (List.mem_cons_self x t)
      · exact List.mem_cons_self b (x :: t)
    · exact List.mem_cons_of_mem b (List.mem_cons_of_mem x h1)

lemma foldl_maxStep_strict (f : ℕ → ℤ) :
    ∀ (l : List ℕ) (b : ℕ),
      l.foldl (maxStep f) b = b ∨
      (l.foldl (maxStep f) b ∈ l ∧ f b < f (l.foldl (maxStep f) b)) := by
  intro l
  induction l with
  | nil => intro b; left; rfl
  | cons x t ih =>
    intro b
    simp only [List.foldl]
    by_cases h : f b < f x
    · have hx : maxStep f b x = x := if_pos h
      rw [hx]
      rcases ih x with h1 | ⟨h1, h2⟩
      · right
        rw [h1]
        exact ⟨List.mem_cons_self x t, h⟩
      · right
        exact ⟨List.mem_cons_of_mem x h1, lt_trans h h2⟩
    · have hx : maxStep f b x = b := if_neg h
      rw [hx]
      rcases ih b with h1 | ⟨h1, h2⟩
      · left; exact h1
      · right
        exact ⟨List.mem_cons_of_mem x h1, h2⟩

lemma foldl_maxStep_first (f : ℕ → ℤ) :
    ∀ (l : List ℕ) (b : ℕ), (∀ y ∈ l, b ≤ y) →
      List.Pairwise (fun a c => a < c) l →
      ∀ L ∈ b :: l, f (l.foldl (maxStep f) b) ≤ f L → l.foldl (maxStep f) b ≤ L := by
  intro l
  induction l with
  | nil =>
    intro b _ _ L hL _
    simp only [List.foldl]
    simp only [List.mem_singleton] at hL
    omega
  | cons x t ih =>
    intro b hble hpl L hL hfL
    have hbx : b ≤ x := hble x (List.mem_cons_self x t)
    have hbt : ∀ y ∈ t, b ≤ y := fun y hy => hble y (List.mem_cons_of_mem x hy)
    have hxt : ∀ y ∈ t, x < y := fun y hy => (List.pairwise_cons.mp hpl).1 y hy
    have htp : List.Pairwise (fun a c => a < c) t := (List.pairwise_cons.mp hpl).2
    have hs : maxStep f b x = x ∨ maxStep f b x = b := by
      unfold maxStep
      split_ifs <;> simp
    have hcle : ∀ y ∈ t, maxStep f b x ≤ y := by
      intro y hy
      rcases hs with hs | hs <;> rw [hs]
      · exact le_of_lt (hxt y hy)
      · exact hbt y hy
    simp only [List.foldl] at hfL ⊢
    rcases List.mem_cons.mp hL with hLb | hL2
    · -- L = b: the accumulated key never drops below f b
      subst hLb
      by_cases h : f L < f x
      · exfalso
        have hx : maxStep f L x = x := if_pos h
        have h1 : f x ≤ f (t.foldl (maxStep f) (maxStep f L x)) := by
          rw [hx]
          exact foldl_maxStep_init f t x
        omega
      · have hx : maxStep f L x = L := if_neg h
        rw [hx] at hfL ⊢
        rcases foldl_maxStep_strict f t L with h1 | ⟨_, h2⟩
        · omega
        · omega
    · rcases List.mem_cons.mp hL2 with hLx | hL3
      · -- L = x
        subst hLx
        by_cases h : f b < f L
        · have hx : maxStep f b L = L := if_pos h
          rw [hx] at hfL ⊢
          exact ih L (fun y hy => le_of_lt (hxt y hy)) htp L (List.mem_cons_self L t) hfL
        · have hx : maxStep f b L = b := if_neg h
          rw [hx] at hfL ⊢
          rcases foldl_maxStep_strict f t b with h1 | ⟨_, h2⟩
          · omega
          · omega
      · -- L in the tail
        exact ih (maxStep f b x) hcle htp L (List.mem_cons_of_mem _ hL3) hfL

lemma max_hiring_level_mem (f : ℕ → ℤ) : max_hiring_level f ∈ levelList := by
  have h := foldl_maxStep_choice f levelList 1
  rw [← max_hiring_level_eq_foldl] at h
  rcases List.mem_cons.mp h with h1 | h1
  · rw [h1]; simp [levelList]
  · exact h1

lemma max_hiring_level_is_max (f : ℕ → ℤ) :
    ∀ L ∈ levelList, f L ≤ f (max_hiring_level f) := by
  intro L hL
  rw [max_hiring_level_eq_foldl]
  exact foldl_maxStep_mem_le f levelList 1 L hL

lemma max_hiring_level_is_first (f : ℕ → ℤ) :
    ∀ L ∈ levelList, f (max_hiring_level f) ≤ f L → max_hiring_level f ≤ L := by
  intro L hL hf
  rw [max_hiring_level_eq_foldl] at hf ⊢
  apply foldl_maxStep_first f levelList 1 _ _ L _ hf
  · intro y hy
    simp only [levelList] at hy
    simp only [List.mem_cons, List.not_mem_nil, or_false] at hy
    omega
  · simp only [levelList]
    norm_num
  · exact List.mem_cons_of_mem 1 hL

lemma predict_one_year_of_carried (p : PredictInput) (a : ℚ)
    (h : p.previous_predicted_total_age = some a) :
    predict_one_year p = .ok (mkResult p a) := by
  unfold predict_one_year current_total_age_opt
  rw [h]

lemma adjusted_C_sum (p : PredictInput) :
    levelSum (adjusted_C p) = total_social_hiring_needed p := by
  by_cases h : initial_total p = total_social_hiring_needed p
  · have he : ∀ L, adjusted_C p L = initial_C p L := by
      intro L
      simp [adjusted_C, h]
    rw [levelSum_expand, he 1, he 2, he 3, he 4, he 5, he 6, he 7, ← levelSum_expand]
    exact h
  · have hm := max_hiring_level_mem (initial_C p)
    have hit : initial_total p = initial_C p 1 + initial_C p 2 + initial_C p 3 +
        initial_C p 4 + initial_C p 5 + initial_C p 6 + initial_C p 7 :=
      levelSum_expand (initial_C p)
    simp only [levelList, List.mem_cons, List.not_mem_nil, or_false] at hm
    rw [levelSum_expand]
    simp only [adjusted_C, if_neg h]
    rcases hm with h1 | h1 | h1 | h1 | h1 | h1 | h1 <;> rw [h1] <;> norm_num <;> omega

lemma C_sum_of_nonneg (p : PredictInput)
    (hnc : ∀ L ∈ levelList, 0 ≤ adjusted_C p L) :
    levelSum (C p) = total_social_hiring_needed p := by
  have he : ∀ L ∈ levelList, C p L = adjusted_C p L := by
    intro L hL
    exact max_eq_right (hnc L hL)
  have h2 := adjusted_C_sum p
  rw [levelSum_expand] at h2
  rw [levelSum_expand, he 1 (by decide), he 2 (by decide), he 3 (by decide),
    he 4 (by decide), he 5 (by decide), he 6 (by decide), he 7 (by decide)]
  omega

lemma B_campus_nonneg (p : PredictInput) (L : ℕ)
    (hcnt : 0 ≤ p.current_campus_employees L)
    (hin : 0 ≤ promoted_in_campus p L)
    (hsum : p.campus_promotion_rates L + p.campus_attrition_rates L ≤ 1) :
    0 ≤ B_campus p L := by
  unfold B_campus
  apply pyRound_nonneg_of_neg_half
  unfold A_campus promoted_out_campus
  have hout := pyRound_cast_le
    ((p.current_campus_employees L : ℚ) * p.campus_promotion_rates L)
  have hinq : (0 : ℚ) ≤ (promoted_in_campus p L : ℚ) := by exact_mod_cast hin
  have hcq : (0 : ℚ) ≤ (p.current_campus_employees L : ℚ) := by exact_mod_cast hcnt
  have key : (0 : ℚ) ≤ (p.current_campus_employees L : ℚ) *
      (1 - p.campus_promotion_rates L - p.campus_attrition_rates L) :=
    mul_nonneg hcq (by linarith)
  have key2 : (p.current_campus_employees L : ℚ) *
      (1 - p.campus_promotion_rates L - p.campus_attrition_rates L) =
      (p.current_campus_employees L : ℚ) -
      (p.current_campus_employees L : ℚ) * p.campus_promotion_rates L -
      (p.current_campus_employees L : ℚ) * p.campus_attrition_rates L := by ring
  push_cast
  linarith [hout, hinq, key, key2]

lemma B_social_nonneg (p : PredictInput) (L : ℕ)
    (hcnt : 0 ≤ p.current_social_employees L)
    (hin : 0 ≤ promoted_in_social p L)
    (hsum : p.social_promotion_rates L + p.social_attrition_rates L ≤ 1) :
    0 ≤ B_social p L := by
  unfold B_social
  apply pyRound_nonneg_of_neg_half
  unfold A_social promoted_out_social
  have hout := pyRound_cast_le
    ((p.current_social_employees L : ℚ) * p.social_promotion_rates L)
  have hinq : (0 : ℚ) ≤ (promoted_in_social p L : ℚ) := by exact_mod_cast hin
  have hcq : (0 : ℚ) ≤ (p.current_social_employees L : ℚ) := by exact_mod_cast hcnt
  have key : (0 : ℚ) ≤ (p.current_social_employees L : ℚ) *
      (1 - p.social_promotion_rates L - p.social_attrition_rates L) :=
    mul_nonneg hcq (by linarith)
  have key2 : (p.current_social_employees L : ℚ) *
      (1 - p.social_promotion_rates L - p.social_attrition_rates L) =
      (p.current_social_employees L : ℚ) -
      (p.current_social_employees L : ℚ) * p.social_promotion_rates L -
      (p.current_social_employees L : ℚ) * p.social_attrition_rates L := by ring
  push_cast
  linarith [hout, hinq, key, key2]

/-! ## The claims -/

/-- C1 (amended): the per-level final headcounts of `predict_one_year` are
non-negative in both channels provided that, at every level and in each
channel, the promotion rate and the attrition rate add up to at most 1 (in
addition to the standing bundle conditions: non-negative headcounts,
non-negative rates, non-negative target and campus ratio).  The unrestricted
claim is false: only the social hiring allocations are clamped to 0, see the
counterexample. -/
theorem c1_nonneg_final_headcounts (p : PredictInput)
    (hcc : ∀ L ∈ levelList, 0 ≤ p.current_campus_employees L)
    (hcs : ∀ L ∈ levelList, 0 ≤ p.current_social_employees L)
    (hpc : ∀ L ∈ levelList, 0 ≤ p.campus_promotion_rates L)
    (hps : ∀ L ∈ levelList, 0 ≤ p.social_promotion_rates L)
    (hbc : ∀ L ∈ levelList, p.campus_promotion_rates L + p.campus_attrition_rates L ≤ 1)
    (hbs : ∀ L ∈ levelList, p.social_promotion_rates L + p.social_attrition_rates L ≤ 1)
    (htt : 0 ≤ p.target_total)
    (hcr : 0 ≤ p.campus_ratio) :
    ∀ L ∈ levelList, 0 ≤ final_campus p L ∧ 0 ≤ final_social p L := by
  intro L hL
  have hmem : 1 < L → L - 1 ∈ levelList := by
    intro h1
    simp only [levelList, List.mem_cons, List.not_mem_nil, or_false] at hL ⊢
    omega
  have hinc : 0 ≤ promoted_in_campus p L := by
    unfold promoted_in_campus
    split_ifs with h1
    · apply pyRound_nonneg
      apply mul_nonneg
      · exact_mod_cast hcc (L - 1) (hmem h1)
      · exact hpc (L - 1) (hmem h1)
    · exact le_refl 0
  have hins : 0 ≤ promoted_in_social p L := by
    unfold promoted_in_social
    split_ifs with h1
    · apply pyRound_nonneg
      apply mul_nonneg
      · exact_mod_cast hcs (L - 1) (hmem h1)
      · exact hps (L - 1) (hmem h1)
    · exact le_refl 0
  have hBc : 0 ≤ B_campus p L := B_campus_nonneg p L (hcc L hL) hinc (hbc L hL)
  have hBs : 0 ≤ B_social p L := B_social_nonneg p L (hcs L hL) hins (hbs L hL)
  constructor
  · unfold final_campus
    have hch : 0 ≤ campus_hiring p := by
      unfold campus_hiring
      apply pyRound_nonneg
      apply mul_nonneg _ hcr
      exact_mod_cast htt
    split_ifs <;> omega
  · unfold final_social C
    have hC : 0 ≤ max 0 (adjusted_C p L) := le_max_left 0 _
    omega

/-- C1 counterexample: with one campus employee at level 2, promotion rate 1
and attrition rate 1 at that level (all rates in [0,1], all headcounts
non-negative, target 0), the final campus headcount at level 2 is -1, so the
claimed unconditional non-negativity fails on the code. -/
theorem c1_counterexample : final_campus negInput 2 < 0 := by
  norm_num [final_campus, B_campus, A_campus, promoted_out_campus, promoted_in_campus,
    campus_hiring, pyRound, negInput]

/-- C1 witness: the amended theorem applied to the all-zero bundle at level 1. -/
theorem c1_witness : 0 ≤ final_campus zeroInput 1 ∧ 0 ≤ final_social zeroInput 1 :=
  c1_nonneg_final_headcounts zeroInput
    (fun _ _ => le_refl 0) (fun _ _ => le_refl 0) (fun _ _ => le_refl 0)
    (fun _ _ => le_refl 0) (fun _ _ => by norm_num [zeroInput])
    (fun _ _ => by norm_num [zeroInput]) (le_refl 0) (le_refl 0)
    1 (by decide)

/-- C2: on the concrete scenario of spec section 8 (100 campus and 100 social
employees at level 1, no promotion, attrition 1/10, all social hiring ratio
at level 1, campus ratio 1/2, target 200, all ages 30), the engine produces
`B_campus[1] = 90`, `B_social[1] = 90`, `campus_hiring = 100`,
a social hiring total of -80 whose level-1 allocation is clamped to 0, and
final headcounts 190 (campus), 90 (social) and 280 (total) at level 1. -/
theorem c2_concrete_scenario :
    B_campus scenarioInput 1 = 90 ∧ B_social scenarioInput 1 = 90 ∧
    campus_hiring scenarioInput = 100 ∧
    total_social_hiring_needed scenarioInput = -80 ∧
    C scenarioInput 1 = 0 ∧
    final_campus scenarioInput 1 = 190 ∧ final_social scenarioInput 1 = 90 ∧
    final_structure scenarioInput 1 = 280 := by
  norm_num [B_campus, B_social, A_campus, A_social, promoted_out_campus,
    promoted_out_social, promoted_in_campus, promoted_in_social, campus_hiring,
    total_social_hiring_needed, total_B, B, C, adjusted_C, initial_C, initial_total,
    final_campus, final_social, final_structure, levelSum, levelList,
    max_hiring_level, pyRound, scenarioInput]

/-- C3: the social allocation step first gives each level the rounded share
`round(total * hiring_ratio[L])`; the whole residual is then added to the
first level (in ascending order) holding the maximum allocation, which makes
the adjusted allocations sum exactly to the social hiring total; negative
allocations are then clamped to 0, so when no clamping triggers (and the
total is non-negative) the final allocations still sum to the total. -/
theorem c3_social_allocation (p : PredictInput) :
    (∀ L ∈ levelList, initial_C p L =
      pyRound ((total_social_hiring_needed p : ℚ) * p.hiring_ratios L)) ∧
    (initial_total p ≠ total_social_hiring_needed p →
      adjusted_C p (max_hiring_level (initial_C p)) =
        initial_C p (max_hiring_level (initial_C p)) +
        (total_social_hiring_needed p - initial_total p)) ∧
    (∀ L ∈ levelList, initial_C p L ≤ initial_C p (max_hiring_level (initial_C p))) ∧
    (∀ L ∈ levelList, initial_C p (max_hiring_level (initial_C p)) ≤ initial_C p L →
      max_hiring_level (initial_C p) ≤ L) ∧
    levelSum (adjusted_C p) = total_social_hiring_needed p ∧
    (∀ L ∈ levelList, C p L = max 0 (adjusted_C p L)) ∧
    (0 ≤ total_social_hiring_needed p → (∀ L ∈ levelList, 0 ≤ adjusted_C p L) →
      levelSum (C p) = total_social_hiring_needed p) :=
  ⟨fun _ _ => rfl,
   fun hne => by simp [adjusted_C, hne],
   max_hiring_level_is_max (initial_C p),
   max_hiring_level_is_first (initial_C p),
   adjusted_C_sum p,
   fun _ _ => rfl,
   fun _ hnc => C_sum_of_nonneg p hnc⟩

/-- C3 witness: the reconciliation instantiated at the all-zero bundle,
whose hiring total is 0 with every allocation 0 (no clamping). -/
theorem c3_witness :
    levelSum (C zeroInput) = total_social_hiring_needed zeroInput :=
  (c3_social_allocation zeroInput).2.2.2.2.2.2
    (by norm_num [total_social_hiring_needed, total_B, B, B_campus, B_social,
      A_campus, A_social, promoted_out_campus, promoted_out_social,
      promoted_in_campus, promoted_in_social, campus_hiring, levelSum, levelList,
      pyRound, zeroInput])
    (fun L _ => by
      norm_num [adjusted_C, initial_C, initial_total, total_social_hiring_needed,
        total_B, B, B_campus, B_social, A_campus, A_social, promoted_out_campus,
        promoted_out_social, promoted_in_campus, promoted_in_social, campus_hiring,
        levelSum, levelList, pyRound, zeroInput])

/-- C4 (amended): when the level-7 promotion rate is zero (both channels),
the post-promotion headcount at level 7 equals the starting level-7
headcount plus the rounded promotions in from level 6.  The unrestricted
claim is false: the code also computes `promoted_out` at level 7 (there is
no special case for the top level), so a nonzero level-7 promotion rate
removes headcount from level 7, see the counterexample. -/
theorem c4_level_seven (p : PredictInput)
    (hc7 : p.campus_promotion_rates 7 = 0)
    (hs7 : p.social_promotion_rates 7 = 0) :
    A_campus p 7 = p.current_campus_employees 7 + promoted_in_campus p 7 ∧
    A_social p 7 = p.current_social_employees 7 + promoted_in_social p 7 ∧
    promoted_in_campus p 7 =
      pyRound ((p.current_campus_employees 6 : ℚ) * p.campus_promotion_rates 6) ∧
    promoted_in_social p 7 =
      pyRound ((p.current_social_employees 6 : ℚ) * p.social_promotion_rates 6) := by
  have hz : pyRound 0 = 0 := by norm_num [pyRound]
  refine ⟨?_, ?_, ?_, ?_⟩
  · unfold A_campus promoted_out_campus
    rw [hc7, mul_zero, hz]
    ring
  · unfold A_social promoted_out_social
    rw [hs7, mul_zero, hz]
    ring
  · unfold promoted_in_campus
    norm_num
  · unfold promoted_in_social
    norm_num

/-- C4 counterexample: ten campus employees at level 7 with a level-7
promotion rate of one half; the promotion pass removes five of them from
level 7 (they leave the system), so the post-promotion level-7 headcount is
5, not the starting 10 plus the promotions in from level 6. -/
theorem c4_counterexample :
    A_campus topInput 7 ≠
      topInput.current_campus_employees 7 + promoted_in_campus topInput 7 := by
  norm_num [A_campus, promoted_out_campus, promoted_in_campus, pyRound, topInput]

/-- C4 witness: the amended theorem applied to the all-zero bundle. -/
theorem c4_witness :
    A_campus zeroInput 7 =
      zeroInput.current_campus_employees 7 + promoted_in_campus zeroInput 7 ∧
    A_social zeroInput 7 =
      zeroInput.current_social_employees 7 + promoted_in_social zeroInput 7 ∧
    promoted_in_campus zeroInput 7 =
      pyRound ((zeroInput.current_campus_employees 6 : ℚ) *
        zeroInput.campus_promotion_rates 6) ∧
    promoted_in_social zeroInput 7 =
      pyRound ((zeroInput.current_social_employees 6 : ℚ) *
        zeroInput.social_promotion_rates 6) :=
  c4_level_seven zeroInput rfl rfl

/-- C5: the attrition pass computes, for every level and each channel,
`B[L] = round(A[L] - headcount[L] * attrition_rate[L])`: the attrition
quantity is scaled by the original pre-promotion headcount and subtracted
from the promotion-adjusted figure, matching the formula the spec states. -/
theorem c5_attrition_pass (p : PredictInput) :
    ∀ L ∈ levelList,
      B_campus p L = specAttrition (A_campus p L) (p.current_campus_employees L)
        (p.campus_attrition_rates L) ∧
      B_social p L = specAttrition (A_social p L) (p.current_social_employees L)
        (p.social_attrition_rates L) :=
  fun _ _ => ⟨rfl, rfl⟩

/-- C5 witness: the attrition formula instantiated at the all-zero bundle,
level 1. -/
theorem c5_witness :
    B_campus zeroInput 1 = specAttrition (A_campus zeroInput 1)
      (zeroInput.current_campus_employees 1) (zeroInput.campus_attrition_rates 1) ∧
    B_social zeroInput 1 = specAttrition (A_social zeroInput 1)
      (zeroInput.current_social_employees 1) (zeroInput.social_attrition_rates 1) :=
  c5_attrition_pass zeroInput 1 (by decide)

/-- C6: the age mass returned by `predict_one_year` follows the spec's
evolution law (start mass, minus the attrition age mass removed, plus one
year per survivor, plus the hires weighted by their entry ages), and the
predicted average age is that mass divided by the predicted total headcount,
or 0 when the predicted total is 0. -/
theorem c6_age_mass (p : PredictInput) (r : PredictResult) (start : ℚ)
    (hstart : specStartAgeMass p = some start)
    (hok : predict_one_year p = .ok r) :
    r.predicted_total_age = specNewAgeMass p start ∧
    r.predicted_average_age =
      (if predicted_total p = 0 then 0
       else specNewAgeMass p start / (predicted_total p : ℚ)) := by
  have hopt : current_total_age_opt p = specStartAgeMass p := rfl
  have hok2 : mkResult p start = r := by
    unfold predict_one_year at hok
    rw [hopt, hstart] at hok
    simpa using hok
  have hmass : predicted_total_age p start = specNewAgeMass p start := rfl
  subst hok2
  constructor
  · exact hmass
  · show predicted_average_age p start = _
    by_cases h : predicted_total p = 0
    · simp [predicted_average_age, h]
    · simp only [predicted_average_age, if_neg h, if_pos, h, ne_eq,
        not_false_iff, if_true]
      rw [← hmass]
      simp [h]

/-- C6 witness: the age-mass law at the all-zero bundle carrying a previous
total age of 5. -/
theorem c6_witness :
    (mkResult carriedInput 5).predicted_total_age = specNewAgeMass carriedInput 5 ∧
    (mkResult carriedInput 5).predicted_average_age =
      (if predicted_total carriedInput = 0 then 0
       else specNewAgeMass carriedInput 5 / (predicted_total carriedInput : ℚ)) :=
  c6_age_mass carriedInput (mkResult carriedInput 5) 5 rfl rfl

/-- C7: `predict_one_year` fails if and only if no previous-year age mass is
supplied and at least one per-channel current-age mapping is missing; the
call either fails (producing no result) or returns the full result tuple. -/
theorem c7_error_iff (p : PredictInput) :
    ((∃ e, predict_one_year p = .error e) ↔
      (p.previous_predicted_total_age = none ∧
        (p.current_campus_ages = none ∨ p.current_social_ages = none))) ∧
    ((∃ e, predict_one_year p = .error e) ∨ (∃ r, predict_one_year p = .ok r)) := by
  constructor
  · unfold predict_one_year current_total_age_opt
    rcases hprev : p.previous_predicted_total_age with _ | a <;>
      rcases hca : p.current_campus_ages with _ | ca <;>
        rcases hsa : p.current_social_ages with _ | sa <;> simp
  · unfold predict_one_year
    rcases current_total_age_opt p with _ | a
    · exact Or.inl ⟨_, rfl⟩
    · exact Or.inr ⟨_, rfl⟩

lemma predict_loop_carried (ip : InitialParams) :
    ∀ (n : ℕ) (campus social : ℕ → ℤ) (a : ℚ) (year : ℕ),
      predict_loop ip campus social (some a) (year + 1) n =
        .ok (chainRecs ip campus social a (year + 1) n) := by
  intro n
  induction n with
  | zero => intro campus social a year; rfl
  | succ m ih =>
    intro campus social a year
    have hok := predict_one_year_of_carried
      (toInput ip campus social none none (some a)) a rfl
    simp [predict_loop, chainRecs, hok, ih]

lemma predict_multiple_years_eq_chainAll (ip : InitialParams) (n : ℕ) :
    predict_multiple_years ip n = .ok (chainAll ip n) := by
  cases n with
  | zero => rfl
  | succ m =>
    have hok : predict_one_year (toInput ip ip.current_campus_employees
        ip.current_social_employees (some ip.current_campus_ages)
        (some ip.current_social_ages) none) =
        .ok (mkResult (toInput ip ip.current_campus_employees
          ip.current_social_employees (some ip.current_campus_ages)
          (some ip.current_social_ages) none) (seedAge ip)) := rfl
    unfold predict_multiple_years
    simp [predict_loop, chainAll, hok, predict_loop_carried ip m]

lemma chainRecs_length (ip : InitialParams) :
    ∀ (n : ℕ) (campus social : ℕ → ℤ) (a : ℚ) (year : ℕ),
      (chainRecs ip campus social a year n).length = n := by
  intro n
  induction n with
  | zero => intro campus social a year; rfl
  | succ m ih => intro campus social a year; simp [chainRecs, ih]

lemma chainAll_length (ip : InitialParams) (n : ℕ) : (chainAll ip n).length = n := by
  cases n with
  | zero => rfl
  | succ m => simp [chainAll, chainRecs_length]

lemma chainRecs_chained (ip : InitialParams) :
    ∀ (n : ℕ) (campus social : ℕ → ℤ) (a : ℚ) (year k : ℕ) (prev cur : YearRec),
      (chainRecs ip campus social a year n).get? k = some prev →
      (chainRecs ip campus social a year n).get? (k + 1) = some cur →
      chained ip prev cur := by
  intro n
  induction n with
  | zero =>
    intro campus social a year k prev cur h1 _
    simp [chainRecs] at h1
  | succ m ih =>
    intro campus social a year k prev cur h1 h2
    cases k with
    | zero =>
      cases m with
      | zero => simp [chainRecs] at h2
      | succ m2 =>
        simp only [chainRecs, List.get?] at h1 h2
        obtain rfl : _ = prev := Option.some.inj h1
        obtain rfl : _ = cur := Option.some.inj h2
        refine ⟨rfl, rfl, rfl, ?_⟩
        exact predict_one_year_of_carried _ _ rfl
    | succ k2 =>
      simp only [chainRecs, List.get?] at h1 h2
      exact ih _ _ _ _ k2 prev cur h1 h2

lemma chainAll_chained (ip : InitialParams) (n k : ℕ) (prev cur : YearRec)
    (h1 : (chainAll ip n).get? k = some prev)
    (h2 : (chainAll ip n).get? (k + 1) = some cur) :
    chained ip prev cur := by
  cases n with
  | zero => simp [chainAll] at h1
  | succ m =>
    cases k with
    | zero =>
      cases m with
      | zero => simp [chainAll, chainRecs] at h2
      | succ m2 =>
        simp only [chainAll, chainRecs, List.get?] at h1 h2
        obtain rfl : _ = prev := Option.some.inj h1
        obtain rfl : _ = cur := Option.some.inj h2
        refine ⟨rfl, rfl, rfl, ?_⟩
        exact predict_one_year_of_carried _ _ rfl
    | succ k2 =>
      simp only [chainAll, List.get?] at h1 h2
      exact chainRecs_chained ip m _ _ _ 1 k2 prev cur h1 h2

/-- C8: `predict_multiple_years` over a horizon of `n` years succeeds with an
ordered sequence of exactly `n` year records, and every record after the
first is exactly the result of a single `predict_one_year` call whose
starting headcounts are the previous record's final campus/social headcounts
and whose carried age mass is the previous record's predicted total age,
with no per-channel age mappings supplied. -/
theorem c8_multi_year_chaining (ip : InitialParams) (n : ℕ) :
    ∃ rs, predict_multiple_years ip n = .ok rs ∧ rs.length = n ∧
      ∀ k prev cur, rs.get? k = some prev → rs.get? (k + 1) = some cur →
        cur.current_campus = prev.result.final_campus ∧
        cur.current_social = prev.result.final_social ∧
        cur.year = prev.year + 1 ∧
        predict_one_year (toInput ip prev.result.final_campus
          prev.result.final_social none none
          (some prev.result.predicted_total_age)) = .ok cur.result :=
  ⟨chainAll ip n, predict_multiple_years_eq_chainAll ip n, chainAll_length ip n,
   fun k prev cur h1 h2 => chainAll_chained ip n k prev cur h1 h2⟩

/-- C9: `calculate_current_metrics` on a table whose campus and social
headcounts are all zero returns average level 0, average age 0 and campus
ratio 0, with no error (the divisions are guarded). -/
theorem c9_degenerate_metrics (df : List Row)
    (hz : ∀ r ∈ df, r.campus_employee = 0 ∧ r.social_employee = 0) :
    (calculate_current_metrics df).current_average_level = 0 ∧
    (calculate_current_metrics df).current_average_age = 0 ∧
    (calculate_current_metrics df).current_campus_ratio = 0 := by
  have htot : (df.map fun r => r.campus_employee + r.social_employee).sum = 0 := by
    apply List.sum_eq_zero
    intro x hx
    simp only [List.mem_map] at hx
    obtain ⟨r, hr, rfl⟩ := hx
    have h := hz r hr
    omega
  simp [calculate_current_metrics, htot]

/-- C9 witness: the all-zero seven-row table. -/
theorem c9_witness :
    (calculate_current_metrics zeroTable).current_average_level = 0 ∧
    (calculate_current_metrics zeroTable).current_average_age = 0 ∧
    (calculate_current_metrics zeroTable).current_campus_ratio = 0 :=
  c9_degenerate_metrics zeroTable (by decide)

/-- C10: `predict_one_year` does not mutate any of its input mappings: in the
state-passing embedding, the environment of headcount, age, rate and
hiring-ratio mappings handed back on success is entry-for-entry the one
passed in (the source only reads the input dictionaries; its one in-place
dictionary write targets the locally constructed `initial_C`). -/
theorem c10_no_input_mutation (p env : PredictInput) (r : PredictResult)
    (h : predict_one_year_st p = .ok (env, r)) :
    (∀ L, env.current_campus_employees L = p.current_campus_employees L) ∧
    (∀ L, env.current_social_employees L = p.current_social_employees L) ∧
    env.current_campus_ages = p.current_campus_ages ∧
    env.current_social_ages = p.current_social_ages ∧
    (∀ L, env.campus_leaving_ages L = p.campus_leaving_ages L) ∧
    (∀ L, env.social_leaving_ages L = p.social_leaving_ages L) ∧
    (∀ L, env.social_new_hire_ages L = p.social_new_hire_ages L) ∧
    (∀ L, env.campus_promotion_rates L = p.campus_promotion_rates L) ∧
    (∀ L, env.social_promotion_rates L = p.social_promotion_rates L) ∧
    (∀ L, env.campus_attrition_rates L = p.campus_attrition_rates L) ∧
    (∀ L, env.social_attrition_rates L = p.social_attrition_rates L) ∧
    (∀ L, env.hiring_ratios L = p.hiring_ratios L) := by
  have henv : env = p := by
    unfold predict_one_year_st at h
    rcases hopt : current_total_age_opt p with _ | a
    · rw [hopt] at h
      simp at h
    · rw [hopt] at h
      simp only [Except.ok.injEq, Prod.mk.injEq] at h
      exact h.1.symm
  subst henv
  exact ⟨fun _ => rfl, fun _ => rfl, rfl, rfl, fun _ => rfl, fun _ => rfl,
    fun _ => rfl, fun _ => rfl, fun _ => rfl, fun _ => rfl, fun _ => rfl,
    fun _ => rfl⟩

/-- C10 witness: the state-passing call on the all-zero bundle with a carried
age mass hands its input mappings back unchanged. -/
theorem c10_witness :
    (∀ L, carriedInput.current_campus_employees L =
      carriedInput.current_campus_employees L) ∧
    (∀ L, carriedInput.current_social_employees L =
      carriedInput.current_social_employees L) ∧
    carriedInput.current_campus_ages = carriedInput.current_campus_ages ∧
    carriedInput.current_social_ages = carriedInput.current_social_ages ∧
    (∀ L, carriedInput.campus_leaving_ages L = carriedInput.campus_leaving_ages L) ∧
    (∀ L, carriedInput.social_leaving_ages L = carriedInput.social_leaving_ages L) ∧
    (∀ L, carriedInput.social_new_hire_ages L = carriedInput.social_new_hire_ages L) ∧
    (∀ L, carriedInput.campus_promotion_rates L = carriedInput.campus_promotion_rates L) ∧
    (∀ L, carriedInput.social_promotion_rates L = carriedInput.social_promotion_rates L) ∧
    (∀ L, carriedInput.campus_attrition_rates L = carriedInput.campus_attrition_rates L) ∧
    (∀ L, carriedInput.social_attrition_rates L = carriedInput.social_attrition_rates L) ∧
    (∀ L, carriedInput.hiring_ratios L = carriedInput.hiring_ratios L) :=
  c10_no_input_mutation carriedInput carriedInput (mkResult carriedInput 5) rfl

end Workforce
